import Mathlib

/-!
Verification development for the `switchbot_lock_logs` integration.

The definitions below are a shallow embedding of the three core source
files:

* `lock_log_manager.py` — user-id extraction from hex payloads, log
  enrichment with user names and display labels, and the fetch/cache
  cycle (`SwitchBotLockLogManager`);
* `sensor.py` — the last-user activity tracker
  (`SwitchBotLockLastUserSensor`): payload validity, newest-valid-log
  selection, and the monotonic high-water-mark update;
* `storage.py` — the per-lock user name mapping store
  (`SwitchBotLockUserStore`).

Python dictionaries are embedded as association lists with
insertion-order semantics (insert overwrites in place, new keys append
at the end), which matches CPython's `dict`.  Fallible fragments
(`try`/`except` around `int(s, 16)`) are embedded with `Option`.
The external `LockLogSource` / `LockLogAction` enumerations from the
`switchbot` library are parameters (`Int → Option String`, code to enum
member name); the enrichment control flow does not depend on their
contents.
-/

namespace SwitchBotLockLogs

/-- Python slice `s[i:j]` on a string (clamping, `i ≤ j` in all uses). -/
def pySlice (s : String) (i j : Nat) : String :=
  String.mk ((s.data.drop i).take (j - i))

/-- Value of one hexadecimal digit, upper or lower case, else `none`. -/
def hexDigitVal (c : Char) : Option Nat :=
  if '0' ≤ c ∧ c ≤ '9' then some (c.toNat - '0'.toNat)
  else if 'a' ≤ c ∧ c ≤ 'f' then some (c.toNat - 'a'.toNat + 10)
  else if 'A' ≤ c ∧ c ≤ 'F' then some (c.toNat - 'A'.toNat + 10)
  else none

/-- CPython's whitespace in the ASCII range as `int()` strips it
(`Py_UNICODE_ISSPACE`): 0x09-0x0D, 0x1C-0x1F and 0x20. -/
def isPySpace (c : Char) : Bool :=
  (9 ≤ c.toNat && c.toNat ≤ 13) || (28 ≤ c.toNat && c.toNat ≤ 31) || c.toNat == 32

/-- All characters of the string are below U+0080. -/
def asciiOnly (s : String) : Bool :=
  s.data.all (fun c => decide (c.toNat < 128))

/-- Python `int(s, 16)` on the two-character slices taken by
`_extract_user_id`.  For a two-character string the accepted grammar
(whitespace, optional sign, optional `0x`, hex digits with single
underscores between digits, whitespace) admits exactly: two hex digits;
a sign followed by one hex digit (so `int("+f", 16) = 15` and
`int("-5", 16) = -5`); or one hex digit with one whitespace character
before or after it (`int(" 5", 16) = 5`).  `"0x"` alone carries no
digits and an underscore needs digits on both sides, so both fail.
Faithful for characters below U+0080; CPython would first map non-ASCII
Unicode decimal digits and whitespace to their ASCII counterparts, so
the theorem clause about a failing parse restricts the slice to ASCII
(`asciiOnly`). -/
def hexByteVal (s : String) : Option Int :=
  match s.data with
  | [c1, c2] =>
    match hexDigitVal c1, hexDigitVal c2 with
    | some a, some b => some ((16 * a + b : Nat) : Int)
    | some a, none => if isPySpace c2 then some ((a : Nat) : Int) else none
    | none, some b =>
      if c1 = '+' ∨ isPySpace c1 then some ((b : Nat) : Int)
      else if c1 = '-' then some (-((b : Nat) : Int))
      else none
    | none, none => none
  | _ => none

/-- Python `dict` lookup `d.get(k)` on an association list. -/
def dictGet {α : Type} (k : String) : List (String × α) → Option α
  | [] => none
  | (k', v) :: t => if k' = k then some v else dictGet k t

/-- Python `d[k] = v`: overwrite in place if the key exists, else append. -/
def dictInsert {α : Type} (k : String) (v : α) : List (String × α) → List (String × α)
  | [] => [(k, v)]
  | (k', v') :: t => if k' = k then (k, v) :: t else (k', v') :: dictInsert k v t

/-- Python `d.pop(k, None)`: drop the entry for `k` (keys of a dict are
unique, so filtering equals removing the one occurrence). -/
def dictPop {α : Type} (k : String) (l : List (String × α)) : List (String × α) :=
  l.filter (fun p => p.1 ≠ k)

/-- Update the value stored at key `k` in place, if present. -/
def dictUpdate {α : Type} (k : String) (f : α → α) : List (String × α) → List (String × α)
  | [] => []
  | (k', v) :: t => if k' = k then (k', f v) :: t else (k', v) :: dictUpdate k f t

/-- `SwitchBotLockLogManager._extract_user_id` (lock_log_manager.py,
lines 127-150): for a payload of length ≥ 6 starting with byte `59` and
pattern byte `01` or `03`, parse byte 2 as hex and return it when
positive (`user_id if user_id > 0 else None`, so zero and the negative
values of sign-form slices give `None`); everything else (short
payloads, other prefixes, parse failures) yields `none`. -/
def extract_user_id (payload : String) : Option Int :=
  if payload = "" ∨ payload.length < 6 then none
  else
    if pySlice payload 0 2 = "59" ∧ (pySlice payload 2 4 = "01" ∨ pySlice payload 2 4 = "03")
    then
      match hexByteVal (pySlice payload 4 6) with
      | some uid => if 0 < uid then some uid else none
      | none => none
    else none

/-- Python `str.title()` restricted to its behaviour on ASCII enum
names: the first letter of every alphabetic run is upper-cased, the
others lower-cased. -/
def pyTitleChars : Bool → List Char → List Char
  | _, [] => []
  | prevAlpha, c :: cs =>
    (if c.isAlpha then (if prevAlpha then c.toLower else c.toUpper) else c)
      :: pyTitleChars c.isAlpha cs

/-- Python `str.title()`. -/
def pyTitle (s : String) : String :=
  String.mk (pyTitleChars false s.data)

/-- A raw log record as fetched from the device.  `source` / `action`
are `Option` because `_enrich_logs` guards `log["source"]` /
`log["action"]` against `KeyError`. -/
structure RawLog where
  timestamp : Int
  source : Option Int
  action : Option Int
  payload : String
deriving DecidableEq

/-- An enriched log record: the raw fields plus the four fields added by
`_enrich_logs`. -/
structure EnrichedLog where
  timestamp : Int
  source : Option Int
  action : Option Int
  payload : String
  user_id : Option Int
  user_name : Option String
  source_display : String
  action_name : String
deriving DecidableEq

/-- Body of the `for log in logs` loop of
`SwitchBotLockLogManager._enrich_logs` (lock_log_manager.py, lines
90-123).  `users` is the name mapping read from the store; `sourceEnum`
and `actionEnum` give the `LockLogSource` / `LockLogAction` member name
for a known code and `none` for an unknown one (the `ValueError`
branch); a missing dict key is the `KeyError` branch. -/
def enrich_log (users : List (String × String))
    (sourceEnum actionEnum : Int → Option String) (log : RawLog) : EnrichedLog :=
  let user_id := extract_user_id log.payload
  let user_name :=
    match user_id with
    | some uid => dictGet (toString uid) users
    | none => none
  let source_display :=
    match log.source with
    | some s =>
      match sourceEnum s with
      | some n => pyTitle (n.replace "_" " ")
      | none => "Unknown (Source " ++ toString s ++ ")"
    | none => "Unknown (Source ?)"
  let action_name :=
    match log.action with
    | some a =>
      match actionEnum a with
      | some n => n.toLower
      | none => "unknown_" ++ toString a
    | none => "unknown_?"
  { timestamp := log.timestamp
    source := log.source
    action := log.action
    payload := log.payload
    user_id := user_id
    user_name := user_name
    source_display := source_display
    action_name := action_name }

/-- `SwitchBotLockLogManager._enrich_logs`: enrich every record of the
batch in order. -/
def enrich_logs (users : List (String × String))
    (sourceEnum actionEnum : Int → Option String) (logs : List RawLog) :
    List EnrichedLog :=
  logs.map (enrich_log users sourceEnum actionEnum)

/-- The mutable state of a `SwitchBotLockLogManager`: its cached
`_latest_logs`. -/
structure ManagerState where
  latest_logs : List EnrichedLog
deriving DecidableEq

/-- `SwitchBotLockLogManager.async_fetch_logs` (lines 55-83).  The
device call `self._lock_device.get_logs(...)` is passed in as
`device_logs`: `none` models a raised transport error, `some logs` a
completed call.  The result is the manager state after the call,
whether `_notify_listeners` ran, and the return value
(`Except.error ()` when the device call raised and the exception
propagates). -/
def async_fetch_logs (users : List (String × String))
    (sourceEnum actionEnum : Int → Option String)
    (st : ManagerState) (device_logs : Option (List RawLog)) :
    ManagerState × Bool × Except Unit (List EnrichedLog) :=
  match device_logs with
  | none => (st, false, Except.error ())
  | some [] => (st, false, Except.ok [])
  | some logs =>
    let enriched := enrich_logs users sourceEnum actionEnum logs
    ({ latest_logs := enriched }, true, Except.ok enriched)

/-- `SwitchBotLockLogManager.latest_log` (lines 152-155):
`self._latest_logs[0] if self._latest_logs else None`. -/
def latest_log (st : ManagerState) : Option EnrichedLog :=
  match st.latest_logs with
  | [] => none
  | l :: _ => some l

/-- `SwitchBotLockLogManager.latest_logs` (lines 157-160):
`self._latest_logs.copy()` — the returned list is a fresh list holding
the same records, so a caller mutating it does not touch the cache; as
a value it is equal to the cache. -/
def latest_logs_copy (st : ManagerState) : List EnrichedLog :=
  st.latest_logs

/-- `SwitchBotLockLastUserSensor._is_valid_payload` (sensor.py, lines
167-175). -/
def is_valid_payload (payload : String) : Bool :=
  if payload = "" ∨ payload.length < 6 then false
  else payload ≠ "000000000000"

/-- The mutable state of a `SwitchBotLockLastUserSensor`. -/
structure TrackerState where
  last_processed_timestamp : Int
  current_log : Option EnrichedLog
deriving DecidableEq

/-- The sensor's state right after `__init__`. -/
def initialTracker : TrackerState :=
  { last_processed_timestamp := 0, current_log := none }

/-- `SwitchBotLockLastUserSensor._get_newest_valid_log` (lines 157-165):
first entry, in the order provided, that is strictly newer than the
high-water mark and has a valid payload. -/
def get_newest_valid_log (lpt : Int) : List EnrichedLog → Option EnrichedLog
  | [] => none
  | log :: rest =>
    if lpt < log.timestamp ∧ is_valid_payload log.payload then some log
    else get_newest_valid_log lpt rest

/-- `SwitchBotLockLastUserSensor._handle_log_update` (lines 143-155),
applied to the manager's current batch. -/
def handle_log_update (st : TrackerState) (logs : List EnrichedLog) : TrackerState :=
  match get_newest_valid_log st.last_processed_timestamp logs with
  | some new_log =>
    { last_processed_timestamp := new_log.timestamp, current_log := some new_log }
  | none => st

/-- `SwitchBotLockLastUserSensor.native_value` (lines 177-182). -/
def last_user_native_value (st : TrackerState) : Option String :=
  match st.current_log with
  | some l => l.user_name
  | none => none

/-- Per-lock data stored by `SwitchBotLockUserStore`: the
`{"name": ..., "users": {...}}` document of storage.py. -/
structure LockData where
  lock_name : Option String
  users : List (String × String)
deriving DecidableEq

/-- The store's `_data`: lock MAC → lock data. -/
abbrev StoreData := List (String × LockData)

/-- `SwitchBotLockUserStore.async_get_lock_data` (storage.py, lines
33-35). -/
def async_get_lock_data (d : StoreData) (mac : String) : LockData :=
  (dictGet mac d).getD { lock_name := none, users := [] }

/-- `SwitchBotLockUserStore.async_get_users` (lines 37-40). -/
def async_get_users (d : StoreData) (mac : String) : List (String × String) :=
  (async_get_lock_data d mac).users

/-- `SwitchBotLockUserStore.async_set_user` (lines 42-47). -/
def async_set_user (d : StoreData) (mac : String) (user_id : Int) (name : String) :
    StoreData :=
  let d' := if (dictGet mac d).isSome then d
            else dictInsert mac { lock_name := none, users := [] } d
  dictUpdate mac (fun ld => { ld with users := dictInsert (toString user_id) name ld.users }) d'

/-- `SwitchBotLockUserStore.async_delete_user` (lines 49-53); the
`"users"` key is always present in the embedded `LockData`, so the
guard reduces to the MAC membership test. -/
def async_delete_user (d : StoreData) (mac : String) (user_id : Int) : StoreData :=
  if (dictGet mac d).isSome then
    dictUpdate mac (fun ld => { ld with users := dictPop (toString user_id) ld.users }) d
  else d

/-- The spec's payload pattern `59 01|03 XX 00 00` read as the claim
reads it: byte 0 is `59`, byte 1 is `01` or `03`, and bytes 3-5 are all
zero (the pattern's bytes are decimal-digit pairs, so case-insensitivity
adds nothing).  This definition follows the spec's words, to be compared
with `extract_user_id`, which is translated from the code. -/
def spec_user_pattern (p : String) : Bool :=
  decide (12 ≤ p.length) && (pySlice p 0 2 == "59") &&
    ((pySlice p 2 4 == "01") || (pySlice p 2 4 == "03")) &&
    (pySlice p 6 12 == "000000")

/-- The Activity Tracker invariant of spec §3: once `current_entry` is
set, its timestamp is at or above the high-water mark. -/
def tracker_inv (st : TrackerState) : Prop :=
  ∀ l, st.current_log = some l → st.last_processed_timestamp ≤ l.timestamp

/-- A batch entry whose payload is the all-zero sentinel, timestamped
newest. -/
def zeroPayloadNewest : EnrichedLog :=
  { timestamp := 100, source := some 6, action := some 2, payload := "000000000000",
    user_id := none, user_name := none, source_display := "App", action_name := "locked" }

/-- An older batch entry with a valid payload carrying user id 5. -/
def olderValidEntry : EnrichedLog :=
  { timestamp := 90, source := some 6, action := some 2, payload := "590105000000",
    user_id := some 5, user_name := none, source_display := "App", action_name := "unlock" }

/-- A valid entry older than a high-water mark of 5. -/
def staleEntry : EnrichedLog :=
  { timestamp := 3, source := some 6, action := some 2, payload := "590105000000",
    user_id := some 5, user_name := none, source_display := "App", action_name := "unlock" }

/-- A cached entry with timestamp 1. -/
def cacheOlderEntry : EnrichedLog :=
  { timestamp := 1, source := some 6, action := some 2, payload := "590105000000",
    user_id := some 5, user_name := none, source_display := "App", action_name := "unlock" }

/-- A cached entry with timestamp 2. -/
def cacheNewerEntry : EnrichedLog :=
  { timestamp := 2, source := some 6, action := some 2, payload := "590102000000",
    user_id := some 2, user_name := none, source_display := "App", action_name := "locked" }

/-- A raw record whose payload passes the tracker's validity check but
does not match the user-id extraction pattern. -/
def unmappedPayloadRaw : RawLog :=
  { timestamp := 100, source := some 6, action := some 2, payload := "ABCDEF123456" }

/-!
## Helper lemmas
-/

theorem dictGet_dictInsert_self {α : Type} (k : String) (v : α) (l : List (String × α)) :
    dictGet k (dictInsert k v l) = some v := by
  induction l with
  | nil => simp [dictInsert, dictGet]
  | cons p t ih =>
    obtain ⟨k', v'⟩ := p
    by_cases h : k' = k
    · simp [dictInsert, dictGet, h]
    · simp [dictInsert, dictGet, h, ih]

theorem dictInsert_idem {α : Type} (k : String) (v : α) (l : List (String × α)) :
    dictInsert k v (dictInsert k v l) = dictInsert k v l := by
  induction l with
  | nil => simp [dictInsert]
  | cons p t ih =>
    obtain ⟨k', v'⟩ := p
    by_cases h : k' = k
    · simp [dictInsert, h]
    · simp [dictInsert, h, ih]

theorem dictGet_dictUpdate_self {α : Type} (k : String) (f : α → α) (l : List (String × α)) :
    dictGet k (dictUpdate k f l) = (dictGet k l).map f := by
  induction l with
  | nil => simp [dictUpdate, dictGet]
  | cons p t ih =>
    obtain ⟨k', v'⟩ := p
    by_cases h : k' = k
    · simp [dictUpdate, dictGet, h]
    · simp [dictUpdate, dictGet, h, ih]

theorem dictUpdate_dictUpdate {α : Type} (k : String) (f g : α → α) (l : List (String × α)) :
    dictUpdate k f (dictUpdate k g l) = dictUpdate k (fun v => f (g v)) l := by
  induction l with
  | nil => simp [dictUpdate]
  | cons p t ih =>
    obtain ⟨k', v'⟩ := p
    by_cases h : k' = k
    · simp [dictUpdate, h]
    · simp [dictUpdate, h, ih]

theorem dictUpdate_eq_self {α : Type} {k : String} {f : α → α} {l : List (String × α)}
    (h : ∀ v, dictGet k l = some v → f v = v) : dictUpdate k f l = l := by
  induction l with
  | nil => rfl
  | cons p t ih =>
    obtain ⟨k', v'⟩ := p
    by_cases hk : k' = k
    · have hv := h v' (by simp [dictGet, hk])
      simp [dictUpdate, hk, hv]
    · have ht : dictUpdate k f t = t :=
        ih (fun v hv => h v (by simpa [dictGet, hk] using hv))
      simp [dictUpdate, hk, ht]


theorem dictPop_eq_self_of_none {α : Type} {k : String} {l : List (String × α)}
    (h : dictGet k l = none) : dictPop k l = l := by
  induction l with
  | nil => rfl
  | cons p t ih =>
    obtain ⟨k', v'⟩ := p
    by_cases hk : k' = k
    · simp [dictGet, hk] at h
    · have ht : dictGet k t = none := by simpa [dictGet, hk] using h
      simpa [dictPop, hk] using ih ht

theorem dictPop_idem {α : Type} (k : String) (l : List (String × α)) :
    dictPop k (dictPop k l) = dictPop k l := by
  simp [dictPop, List.filter_filter]

theorem gnvl_eq_find (lpt : Int) (logs : List EnrichedLog) :
    get_newest_valid_log lpt logs =
      logs.find? (fun l => decide (lpt < l.timestamp) && is_valid_payload l.payload) := by
  induction logs with
  | nil => rfl
  | cons a t ih =>
    by_cases h : lpt < a.timestamp ∧ is_valid_payload a.payload
    · rw [get_newest_valid_log, if_pos h, List.find?_cons_of_pos]
      simp [h.1, h.2]
    · rw [get_newest_valid_log, if_neg h, List.find?_cons_of_neg, ih]
      simp only [Bool.and_eq_true, decide_eq_true_eq, not_and]
      intro hlt hval
      exact h ⟨hlt, hval⟩

theorem gnvl_some_spec {lpt : Int} {logs : List EnrichedLog} {l : EnrichedLog}
    (h : get_newest_valid_log lpt logs = some l) :
    lpt < l.timestamp ∧ is_valid_payload l.payload = true := by
  rw [gnvl_eq_find] at h
  simpa using List.find?_some h

theorem gnvl_none_of_stale {lpt : Int} {logs : List EnrichedLog}
    (h : ∀ l ∈ logs, l.timestamp ≤ lpt) : get_newest_valid_log lpt logs = none := by
  induction logs with
  | nil => rfl
  | cons a t ih =>
    rw [get_newest_valid_log, if_neg]
    · exact ih fun l hl => h l (List.mem_cons_of_mem _ hl)
    · rintro ⟨h1, -⟩
      exact absurd h1 (not_lt.mpr (h a (List.mem_cons_self _ _)))

theorem handle_log_update_mono (st : TrackerState) (logs : List EnrichedLog) :
    st.last_processed_timestamp ≤ (handle_log_update st logs).last_processed_timestamp := by
  cases h : get_newest_valid_log st.last_processed_timestamp logs with
  | none => simp [handle_log_update, h]
  | some l =>
    simp only [handle_log_update, h]
    exact le_of_lt (gnvl_some_spec h).1

theorem foldl_handle_log_update_mono (batches : List (List EnrichedLog)) (st : TrackerState) :
    st.last_processed_timestamp ≤
      (batches.foldl handle_log_update st).last_processed_timestamp := by
  induction batches generalizing st with
  | nil => exact le_refl _
  | cons b bs ih =>
    exact le_trans (handle_log_update_mono st b) (ih (handle_log_update st b))

theorem tracker_inv_step {st : TrackerState} (logs : List EnrichedLog)
    (h : tracker_inv st) : tracker_inv (handle_log_update st logs) := by
  cases hg : get_newest_valid_log st.last_processed_timestamp logs with
  | none =>
    intro l hl
    simp only [handle_log_update, hg] at hl ⊢
    exact h l hl
  | some nl =>
    intro l hl
    simp only [handle_log_update, hg, Option.some.injEq] at hl ⊢
    subst hl
    exact le_refl _

theorem tracker_inv_foldl (batches : List (List EnrichedLog)) {st : TrackerState}
    (h : tracker_inv st) : tracker_inv (batches.foldl handle_log_update st) := by
  induction batches generalizing st with
  | nil => exact h
  | cons b bs ih => exact ih (tracker_inv_step b h)

/-!
## Claim theorems
-/

/-- Claim C1: the Activity Tracker state is monotonic and sticky — the
high-water mark `last_processed_timestamp` never decreases across any
single update or any sequence of updates; starting from the initial
state, `current_entry.timestamp >= last_processed_timestamp` holds
whenever `current_entry` is set; `current_entry` never resets to
absent; and an update over a batch whose entries all carry timestamps
`<=` the current high-water mark leaves the state unchanged. -/
theorem tracker_monotonic_and_sticky :
    (∀ (st : TrackerState) (logs : List EnrichedLog),
        st.last_processed_timestamp ≤ (handle_log_update st logs).last_processed_timestamp)
  ∧ (∀ (batches : List (List EnrichedLog)) (st : TrackerState),
        st.last_processed_timestamp ≤
          (batches.foldl handle_log_update st).last_processed_timestamp)
  ∧ (∀ batches : List (List EnrichedLog),
        tracker_inv (batches.foldl handle_log_update initialTracker))
  ∧ (∀ (st : TrackerState) (logs : List EnrichedLog),
        st.current_log ≠ none → (handle_log_update st logs).current_log ≠ none)
  ∧ (∀ (st : TrackerState) (logs : List EnrichedLog),
        (∀ l ∈ logs, l.timestamp ≤ st.last_processed_timestamp) →
        handle_log_update st logs = st) := by
  refine ⟨handle_log_update_mono, foldl_handle_log_update_mono, ?_, ?_, ?_⟩
  · intro batches
    refine tracker_inv_foldl batches ?_
    intro l hl
    simp [initialTracker] at hl
  · intro st logs h
    cases hg : get_newest_valid_log st.last_processed_timestamp logs with
    | none => simpa [handle_log_update, hg] using h
    | some nl => simp [handle_log_update, hg]
  · intro st logs h
    simp [handle_log_update, gnvl_none_of_stale h]

/-- Witness for C1: a batch whose only entry is older than the
high-water mark 5 leaves the tracker state untouched. -/
theorem tracker_monotonic_and_sticky_witness :
    handle_log_update { last_processed_timestamp := 5, current_log := none } [staleEntry] =
      { last_processed_timestamp := 5, current_log := none } :=
  tracker_monotonic_and_sticky.2.2.2.2 _ [staleEntry]
    (by intro l hl; rw [List.mem_singleton] at hl; subst hl; decide)

/-- Claim C2: the tracker's selection is exactly "first entry, in the
order provided, with timestamp strictly above the high-water mark and a
payload of length ≥ 6 that is not the all-zero sentinel" — stated as
equality with `List.find?` — and an all-zero-sentinel payload is never
the selected entry, even when it is the newest of the batch. -/
theorem tracker_selection_first_valid_match :
    (∀ (lpt : Int) (logs : List EnrichedLog),
        get_newest_valid_log lpt logs =
          logs.find? (fun l => decide (lpt < l.timestamp) && is_valid_payload l.payload))
  ∧ (∀ p : String, is_valid_payload p = true ↔ 6 ≤ p.length ∧ p ≠ "000000000000")
  ∧ (∀ (lpt : Int) (logs : List EnrichedLog) (l : EnrichedLog),
        get_newest_valid_log lpt logs = some l → l.payload ≠ "000000000000")
  ∧ get_newest_valid_log 0 [zeroPayloadNewest, olderValidEntry] = some olderValidEntry := by
  have hvalid : ∀ p : String, is_valid_payload p = true ↔ 6 ≤ p.length ∧ p ≠ "000000000000" := by
    intro p
    unfold is_valid_payload
    by_cases h : p = "" ∨ p.length < 6
    · rw [if_pos h]
      simp only [Bool.false_eq_true, false_iff, not_and]
      intro h6
      rcases h with h | h
      · exact absurd h6 (by subst h; decide)
      · omega
    · rw [if_neg h]
      push_neg at h
      simp only [decide_eq_true_eq, iff_and_self]
      exact fun _ => h.2
  refine ⟨gnvl_eq_find, hvalid, ?_, by decide⟩
  intro lpt logs l hl
  exact ((hvalid l.payload).mp (gnvl_some_spec hl).2).2

/-- Witness for C2: the `find?` characterisation at a concrete batch in
which the sentinel-payload entry is newest. -/
theorem tracker_selection_first_valid_match_witness :
    get_newest_valid_log 0 [zeroPayloadNewest, olderValidEntry] =
      [zeroPayloadNewest, olderValidEntry].find?
        (fun l => decide ((0 : Int) < l.timestamp) && is_valid_payload l.payload) :=
  tracker_selection_first_valid_match.1 0 [zeroPayloadNewest, olderValidEntry]

/-- Counterexample for C3: the code checks only bytes 0 and 1 of the
payload, never bytes 3-5.  `"590105FFFFFF"` does not match the spec's
pattern `59 01|03 XX 00 00` (its bytes 3-5 are `FF FF FF`), yet
`extract_user_id` returns 5 rather than absent. -/
theorem extract_user_id_ignores_trailing_bytes :
    spec_user_pattern "590105FFFFFF" = false
  ∧ extract_user_id "590105FFFFFF" = some 5
  ∧ extract_user_id "590105FFFFFF" ≠ none := by decide

/-- Claim C3 as amended: `extract_user_id` returns absent for every
payload that fails the checks the code actually performs — first two
characters `"59"` and characters 2-3 equal to `"01"` or `"03"` (bytes
3-5 are not examined). -/
theorem extract_user_id_absent_on_prefix_mismatch :
    ∀ p : String,
      ¬(pySlice p 0 2 = "59" ∧ (pySlice p 2 4 = "01" ∨ pySlice p 2 4 = "03")) →
      extract_user_id p = none := by
  intro p h
  unfold extract_user_id
  by_cases hs : p = "" ∨ p.length < 6
  · rw [if_pos hs]
  · rw [if_neg hs, if_neg h]

/-- Witness for C3 (amended): a payload with a foreign prefix yields no
user id. -/
theorem extract_user_id_absent_on_prefix_mismatch_witness :
    extract_user_id "ABCDEF123456" = none :=
  extract_user_id_absent_on_prefix_mismatch "ABCDEF123456" (by decide)

/-- Counterexample for C4: the spec's concrete examples are wrong about
the code.  In both `"590103050000"` and `"590103000000"` byte 2
(`payload[4:6]`) is `"03"`, so `extract_user_id` returns 3 — not 5, and
not absent. -/
theorem extract_user_id_spec_examples_fail :
    extract_user_id "590103050000" = some 3
  ∧ extract_user_id "590103050000" ≠ some 5
  ∧ extract_user_id "590103000000" = some 3
  ∧ extract_user_id "590103000000" ≠ none := by decide

/-- Claim C4 as amended: for a payload of length ≥ 6 whose first two
characters are `"59"` and whose characters 2-3 are `"01"` or `"03"`,
`extract_user_id` returns the value of `payload[4:6]` parsed as Python
`int(·, 16)` when that value is positive and absent otherwise (zero —
and the negative values sign-form slices can produce — encode "no
user"); a parse failure of `payload[4:6]` (stated over ASCII slices,
where the parse model is exact) or a short payload yields absent, and
the function is total, so it never raises.  Parse success includes
Python's sign and whitespace forms: `"5901+f0000"` gives 15 and
`"5901 50000"` gives 5, while `"5901-50000"` parses to -5 and is
reported absent.  The spec's concrete examples are corrected: byte 2 of
its example strings sits at `payload[4:6]`, so `"590103050000"` and
`"590103000000"` both give 3, while `"590100000000"` gives absent and
`"590105000000"` gives 5. -/
theorem extract_user_id_byte2_algorithm :
    (∀ p : String, p.length < 6 → extract_user_id p = none)
  ∧ (∀ (p : String) (v : Int), 6 ≤ p.length → pySlice p 0 2 = "59" →
      (pySlice p 2 4 = "01" ∨ pySlice p 2 4 = "03") →
      hexByteVal (pySlice p 4 6) = some v →
      extract_user_id p = if 0 < v then some v else none)
  ∧ (∀ p : String, asciiOnly (pySlice p 4 6) = true →
      hexByteVal (pySlice p 4 6) = none → extract_user_id p = none)
  ∧ extract_user_id "590100000000" = none
  ∧ extract_user_id "590105000000" = some 5
  ∧ extract_user_id "5901+f0000" = some 15
  ∧ extract_user_id "5901 50000" = some 5
  ∧ extract_user_id "5901-50000" = none
  ∧ extract_user_id "590103050000" = some 3
  ∧ extract_user_id "590103000000" = some 3 := by
  refine ⟨?_, ?_, ?_, by decide, by decide, by decide, by decide, by decide,
    by decide, by decide⟩
  · intro p h
    unfold extract_user_id
    rw [if_pos (Or.inr h)]
  · intro p v h6 h59 h0103 hhex
    unfold extract_user_id
    rw [if_neg, if_pos ⟨h59, h0103⟩, hhex]
    rintro (h | h)
    · subst h
      exact absurd h6 (by decide)
    · omega
  · intro p hascii hhex
    unfold extract_user_id
    by_cases hs : p = "" ∨ p.length < 6
    · rw [if_pos hs]
    · rw [if_neg hs]
      by_cases hp : pySlice p 0 2 = "59" ∧ (pySlice p 2 4 = "01" ∨ pySlice p 2 4 = "03")
      · rw [if_pos hp, hhex]
      · rw [if_neg hp]

/-- Witness for C4 (amended): the parse-success clause evaluated at
`"590105000000"`, whose byte 2 parses to 5, and the parse-failure
clause at `"5901xz0000"`, whose ASCII slice `"xz"` fails to parse. -/
theorem extract_user_id_byte2_algorithm_witness :
    (extract_user_id "590105000000" = if (0 : Int) < 5 then some 5 else none)
  ∧ extract_user_id "5901xz0000" = none :=
  ⟨extract_user_id_byte2_algorithm.2.1 "590105000000" 5 (by decide) (by decide)
      (Or.inl (by decide)) (by decide),
    extract_user_id_byte2_algorithm.2.2.1 "5901xz0000" (by decide) (by decide)⟩

/-- Claim C5: a failing device fetch propagates the error with the
cached `latest_logs` unchanged and no observer notified; a zero-record
fetch returns the empty sequence, leaves the cache as it was (no-op on
empty), and notifies nobody; only a non-empty batch replaces the cache
and fires the notification, with the enriched batch as both cache and
return value. -/
theorem fetch_failure_or_empty_preserves_cache :
    (∀ (users : List (String × String)) (sourceEnum actionEnum : Int → Option String)
        (st : ManagerState),
        async_fetch_logs users sourceEnum actionEnum st none =
          (st, false, Except.error ()))
  ∧ (∀ (users : List (String × String)) (sourceEnum actionEnum : Int → Option String)
        (st : ManagerState),
        async_fetch_logs users sourceEnum actionEnum st (some []) =
          (st, false, Except.ok []))
  ∧ (∀ (users : List (String × String)) (sourceEnum actionEnum : Int → Option String)
        (st : ManagerState) (logs : List RawLog), logs ≠ [] →
        async_fetch_logs users sourceEnum actionEnum st (some logs) =
          ({ latest_logs := enrich_logs users sourceEnum actionEnum logs }, true,
            Except.ok (enrich_logs users sourceEnum actionEnum logs))) := by
  refine ⟨fun _ _ _ _ => rfl, fun _ _ _ _ => rfl, ?_⟩
  intro users sourceEnum actionEnum st logs hne
  cases logs with
  | nil => exact absurd rfl hne
  | cons a t => rfl

/-- Witness for C5: a one-record fetch replaces the cache, notifies, and
returns the enriched batch. -/
theorem fetch_failure_or_empty_preserves_cache_witness :
    async_fetch_logs [] (fun _ => none) (fun _ => none) { latest_logs := [] }
        (some [unmappedPayloadRaw]) =
      ({ latest_logs := enrich_logs [] (fun _ => none) (fun _ => none) [unmappedPayloadRaw] },
        true,
        Except.ok (enrich_logs [] (fun _ => none) (fun _ => none) [unmappedPayloadRaw])) :=
  fetch_failure_or_empty_preserves_cache.2.2 [] (fun _ => none) (fun _ => none)
    { latest_logs := [] } [unmappedPayloadRaw] (by simp)

/-- Claim C6: enrichment is order- and length-preserving (output record
`i` enriches input record `i`), and `user_name` is exactly the lookup
of the string form of `user_id` in the name mapping — present iff
`user_id` is present and mapped, absent (`none`, never a placeholder)
otherwise. -/
theorem enrich_order_preserving_and_user_name :
    (∀ (users : List (String × String)) (sourceEnum actionEnum : Int → Option String)
        (logs : List RawLog),
        (enrich_logs users sourceEnum actionEnum logs).length = logs.length)
  ∧ (∀ (users : List (String × String)) (sourceEnum actionEnum : Int → Option String)
        (logs : List RawLog) (i : Nat) (h1 : i < logs.length)
        (h2 : i < (enrich_logs users sourceEnum actionEnum logs).length),
        (enrich_logs users sourceEnum actionEnum logs).get ⟨i, h2⟩ =
          enrich_log users sourceEnum actionEnum (logs.get ⟨i, h1⟩))
  ∧ (∀ (users : List (String × String)) (sourceEnum actionEnum : Int → Option String)
        (log : RawLog),
        (enrich_log users sourceEnum actionEnum log).user_name =
          (enrich_log users sourceEnum actionEnum log).user_id.bind
            (fun uid => dictGet (toString uid) users))
  ∧ (∀ (users : List (String × String)) (sourceEnum actionEnum : Int → Option String)
        (log : RawLog) (name : String),
        (enrich_log users sourceEnum actionEnum log).user_name = some name →
        ∃ uid, (enrich_log users sourceEnum actionEnum log).user_id = some uid ∧
          dictGet (toString uid) users = some name) := by
  have huser : ∀ (users : List (String × String)) (sourceEnum actionEnum : Int → Option String)
      (log : RawLog),
      (enrich_log users sourceEnum actionEnum log).user_name =
        (enrich_log users sourceEnum actionEnum log).user_id.bind
          (fun uid => dictGet (toString uid) users) := by
    intro users sourceEnum actionEnum log
    simp only [enrich_log]
    cases extract_user_id log.payload <;> rfl
  refine ⟨fun users sE aE logs => by simp [enrich_logs], ?_, huser, ?_⟩
  · intro users sE aE logs i h1 h2
    simp [enrich_logs, List.get_eq_getElem, List.getElem_map]
  · intro users sE aE log name h
    rw [huser] at h
    cases hid : (enrich_log users sE aE log).user_id with
    | none => rw [hid] at h; exact absurd h (by simp)
    | some uid =>
      rw [hid] at h
      exact ⟨uid, rfl, by simpa using h⟩

/-- Witness for C6: enriched record 0 of a one-record batch is the
enrichment of input record 0. -/
theorem enrich_order_preserving_and_user_name_witness :
    (enrich_logs [] (fun _ => none) (fun _ => none) [unmappedPayloadRaw]).get
        ⟨0, by decide⟩ =
      enrich_log [] (fun _ => none) (fun _ => none)
        ([unmappedPayloadRaw].get ⟨0, by decide⟩) :=
  enrich_order_preserving_and_user_name.2.1 [] (fun _ => none) (fun _ => none)
    [unmappedPayloadRaw] 0 (by decide) (by decide)

/-- Counterexample for C7: `latest_log` returns the first cached entry,
not the entry with the greatest timestamp.  With the cache
`[cacheOlderEntry, cacheNewerEntry]` (timestamps 1 then 2) it returns
the timestamp-1 entry although the cache holds a strictly newer one. -/
theorem latest_log_head_not_newest :
    latest_log { latest_logs := [cacheOlderEntry, cacheNewerEntry] } = some cacheOlderEntry
  ∧ cacheNewerEntry ∈
      (ManagerState.mk [cacheOlderEntry, cacheNewerEntry]).latest_logs
  ∧ cacheOlderEntry.timestamp < cacheNewerEntry.timestamp := by decide

/-- Claim C7 as amended: `latest_log` returns the first entry of the
cached batch (absent when the cache is empty); that entry is the newest
exactly under the expected newest-first ordering — when the cache is
sorted by non-increasing timestamp, every cached entry's timestamp is
`<=` the returned entry's — and `latest_logs` returns a copy equal to
the cached sequence (the Python `.copy()` makes it a fresh list, so
caller-side list mutation cannot reach the cache). -/
theorem latest_log_head_and_defensive_copy :
    (∀ st : ManagerState, latest_log st = st.latest_logs.head?)
  ∧ (∀ (st : ManagerState) (l : EnrichedLog),
        latest_log st = some l →
        st.latest_logs.Pairwise (fun a b => b.timestamp ≤ a.timestamp) →
        ∀ x ∈ st.latest_logs, x.timestamp ≤ l.timestamp)
  ∧ (∀ st : ManagerState, latest_logs_copy st = st.latest_logs) := by
  refine ⟨?_, ?_, fun _ => rfl⟩
  · rintro ⟨ls⟩
    cases ls <;> rfl
  · rintro ⟨ls⟩ l hl hp x hx
    cases ls with
    | nil => exact absurd hl (by simp [latest_log])
    | cons a t =>
      have ha : a = l := by simpa [latest_log] using hl
      subst ha
      rw [List.pairwise_cons] at hp
      rcases List.mem_cons.mp hx with h | h
      · subst h; exact le_refl _
      · exact hp.1 x h

/-- Witness for C7 (amended): on a newest-first cache the returned
head's timestamp bounds the older entry's. -/
theorem latest_log_head_and_defensive_copy_witness :
    cacheOlderEntry.timestamp ≤ cacheNewerEntry.timestamp :=
  latest_log_head_and_defensive_copy.2.1
    { latest_logs := [cacheNewerEntry, cacheOlderEntry] } cacheNewerEntry rfl
    (by simp [List.pairwise_cons]; decide) cacheOlderEntry (by simp)

/-- Claim C8: a record whose source or action code is unknown to the
enumerations — or whose source/action key is missing — enriches to a
fallback display string embedding the raw numeric code (or `?`), and
enrichment never raises (it is a total function). -/
theorem enrich_unknown_code_fallback :
    (∀ (users : List (String × String)) (sourceEnum actionEnum : Int → Option String)
        (r : RawLog) (s : Int), r.source = some s → sourceEnum s = none →
        (enrich_log users sourceEnum actionEnum r).source_display =
          "Unknown (Source " ++ toString s ++ ")")
  ∧ (∀ (users : List (String × String)) (sourceEnum actionEnum : Int → Option String)
        (r : RawLog), r.source = none →
        (enrich_log users sourceEnum actionEnum r).source_display = "Unknown (Source ?)")
  ∧ (∀ (users : List (String × String)) (sourceEnum actionEnum : Int → Option String)
        (r : RawLog) (a : Int), r.action = some a → actionEnum a = none →
        (enrich_log users sourceEnum actionEnum r).action_name = "unknown_" ++ toString a)
  ∧ (∀ (users : List (String × String)) (sourceEnum actionEnum : Int → Option String)
        (r : RawLog), r.action = none →
        (enrich_log users sourceEnum actionEnum r).action_name = "unknown_?") := by
  refine ⟨?_, ?_, ?_, ?_⟩
  · intro users sE aE r s hs hE
    simp [enrich_log, hs, hE]
  · intro users sE aE r hs
    simp [enrich_log, hs]
  · intro users sE aE r a ha hE
    simp [enrich_log, ha, hE]
  · intro users sE aE r ha
    simp [enrich_log, ha]

/-- Witness for C8: source code 99 unknown to an empty enumeration
falls back to a string carrying the code. -/
theorem enrich_unknown_code_fallback_witness :
    (enrich_log [] (fun _ => none) (fun _ => none) unmappedPayloadRaw).source_display =
      "Unknown (Source " ++ toString (6 : Int) ++ ")" :=
  enrich_unknown_code_fallback.1 [] (fun _ => none) (fun _ => none)
    unmappedPayloadRaw 6 rfl rfl

theorem async_set_user_idem (d : StoreData) (mac : String) (uid : Int) (nm : String) :
    async_set_user (async_set_user d mac uid nm) mac uid nm = async_set_user d mac uid nm := by
  have e1 : ∀ l : StoreData, (dictGet mac l).isSome →
      async_set_user l mac uid nm =
        dictUpdate mac (fun ld => { ld with users := dictInsert (toString uid) nm ld.users }) l := by
    intro l hl
    unfold async_set_user
    rw [if_pos hl]
  have e0 : async_set_user d mac uid nm =
      dictUpdate mac (fun ld => { ld with users := dictInsert (toString uid) nm ld.users })
        (if (dictGet mac d).isSome then d
         else dictInsert mac { lock_name := none, users := [] } d) := rfl
  have hm : (dictGet mac (async_set_user d mac uid nm)).isSome := by
    rw [e0, dictGet_dictUpdate_self]
    by_cases h : (dictGet mac d).isSome
    · rw [if_pos h]
      cases hg : dictGet mac d
      · rw [hg] at h; simp at h
      · rfl
    · rw [if_neg h, dictGet_dictInsert_self]
      rfl
  rw [e1 _ hm, e0, dictUpdate_dictUpdate]
  congr 1
  funext ld
  simp [dictInsert_idem]

theorem async_delete_user_idem (d : StoreData) (mac : String) (uid : Int) :
    async_delete_user (async_delete_user d mac uid) mac uid = async_delete_user d mac uid := by
  have step : ∀ l : StoreData, (dictGet mac l).isSome →
      async_delete_user l mac uid =
        dictUpdate mac (fun ld => { ld with users := dictPop (toString uid) ld.users }) l := by
    intro l hl
    unfold async_delete_user
    rw [if_pos hl]
  by_cases h : (dictGet mac d).isSome
  · have hm : (dictGet mac (async_delete_user d mac uid)).isSome := by
      rw [step d h, dictGet_dictUpdate_self]
      cases hg : dictGet mac d
      · rw [hg] at h; simp at h
      · rfl
    rw [step _ hm, step d h, dictUpdate_dictUpdate]
    congr 1
    funext ld
    simp [dictPop_idem]
  · have e : async_delete_user d mac uid = d := by
      unfold async_delete_user
      rw [if_neg h]
    rw [e]
    exact e

theorem async_delete_user_absent (d : StoreData) (mac : String) (uid : Int)
    (h : dictGet (toString uid) (async_get_users d mac) = none) :
    async_delete_user d mac uid = d := by
  unfold async_delete_user
  by_cases hm : (dictGet mac d).isSome
  · rw [if_pos hm]
    apply dictUpdate_eq_self
    intro v hv
    obtain ⟨ln, us⟩ := v
    have husers : async_get_users d mac = us := by
      unfold async_get_users async_get_lock_data
      rw [hv]
      rfl
    rw [husers] at h
    show ({ lock_name := ln, users := dictPop (toString uid) us } : LockData) = ⟨ln, us⟩
    rw [dictPop_eq_self_of_none h]
  · rw [if_neg hm]

/-- Claim C9: the user-mapping store satisfies the round-trip and
idempotence laws — `set_user` then `get_users` yields the mapping,
a following `delete_user` empties it, repeating an identical `set_user`
or `delete_user` call changes nothing further, and deleting an absent
user is a state-preserving no-op (and, being total, never raises). -/
theorem user_store_roundtrip_and_idempotence :
    async_get_users (async_set_user [] "AA:BB" 5 "Alice") "AA:BB" = [("5", "Alice")]
  ∧ async_get_users (async_delete_user (async_set_user [] "AA:BB" 5 "Alice") "AA:BB" 5)
      "AA:BB" = []
  ∧ (∀ (d : StoreData) (mac : String) (uid : Int) (nm : String),
        async_set_user (async_set_user d mac uid nm) mac uid nm = async_set_user d mac uid nm)
  ∧ (∀ (d : StoreData) (mac : String) (uid : Int),
        async_delete_user (async_delete_user d mac uid) mac uid = async_delete_user d mac uid)
  ∧ (∀ (d : StoreData) (mac : String) (uid : Int),
        dictGet (toString uid) (async_get_users d mac) = none →
        async_delete_user d mac uid = d) :=
  ⟨by decide, by decide, async_set_user_idem, async_delete_user_idem, async_delete_user_absent⟩

/-- Witness for C9: deleting a user from an empty store is a no-op. -/
theorem user_store_roundtrip_and_idempotence_witness :
    async_delete_user [] "AA:BB" 7 = [] :=
  user_store_roundtrip_and_idempotence.2.2.2.2 [] "AA:BB" 7 (by decide)

/-- Claim C10: acceptance by the tracker does not depend on user
identity.  The batch holding the single record with payload
`"ABCDEF123456"` (valid — length 12, not the sentinel — but not
matching the user-id pattern) is accepted: the high-water mark advances
to its timestamp 100, the accepted entry has `user_id` absent, and the
last-user value reported to observers (`native_value`) is absent. -/
theorem tracker_accepts_entry_without_user :
    (handle_log_update initialTracker
        (enrich_logs [] (fun _ => none) (fun _ => none)
          [unmappedPayloadRaw])).last_processed_timestamp = 100
  ∧ ((handle_log_update initialTracker
        (enrich_logs [] (fun _ => none) (fun _ => none)
          [unmappedPayloadRaw])).current_log.map (fun l => l.user_id)) = some none
  ∧ last_user_native_value (handle_log_update initialTracker
        (enrich_logs [] (fun _ => none) (fun _ => none) [unmappedPayloadRaw])) = none
  ∧ is_valid_payload "ABCDEF123456" = true
  ∧ extract_user_id "ABCDEF123456" = none := by decide

end SwitchBotLockLogs
